import Mathlib

/-!
Verification of the reactive core of `app_unified.py` (SuicideMap dashboard).

The Python source is shallowly embedded: pandas dataframes become lists of
`Record`s, rates become rationals, the Dash callbacks become pure Lean
functions of their inputs.  Machine-level concerns (float rounding, the Dash
transport layer, plotly rendering) are outside the embedding; each callback is
modelled down to the data it computes.
-/

namespace SuicideMap

/-! ## Band classifier (`get_rate_band`, source lines 159-166) -/

/-- `get_rate_band(rate)` from the source: an if/elif chain over ascending
thresholds 10, 15, 20, 25, 30, with `"> 30"` as the final `else`. -/
def get_rate_band (rate : ℚ) : String :=
  if rate < 10 then "< 10"
  else if rate < 15 then "10-15"
  else if rate < 20 then "15-20"
  else if rate < 25 then "20-25"
  else if rate < 30 then "25-30"
  else "> 30"

/-- `BAND_ORDER` from the source (line 62): fixed display order of the six
rate bands. -/
def BAND_ORDER : List String :=
  ["< 10", "10-15", "15-20", "20-25", "25-30", "> 30"]

/-! ## Legend toggle (`toggle_band`, source lines 454-473)

The callback receives the band extracted from the triggering legend id and the
current `active-bands` store (a JSON list of band strings); it removes the
band when present and the list has more than one element, and appends it when
absent. -/

/-- The state transition of the `toggle_band` callback on the active-bands
list, for the band named by the triggering legend item. -/
def toggle_band (band : String) (current_bands : List String) : List String :=
  if current_bands.contains band then
    if current_bands.length > 1 then
      current_bands.filter (fun b => !(b == band))
    else
      current_bands
  else
    current_bands ++ [band]

/-- Folding a sequence of legend clicks over an initial active-bands list. -/
def apply_toggles (initial : List String) (bands : List String) : List String :=
  bands.foldl (fun s b => toggle_band b s) initial

/-! ## Animation clock (`advance_year`, source lines 851-860)

`n_intervals` is `None` before the interval has ever fired, modelled as
`Option ℕ`; `is_disabled` is the paused flag (`True` = Stopped). -/

/-- The `advance_year` callback: returns the new value of the year slider. -/
def advance_year (n_intervals : Option ℕ) (current_year : ℤ)
    (is_disabled : Bool) : ℤ :=
  if is_disabled || n_intervals.isNone then current_year
  else if current_year ≥ 2023 then 2000
  else current_year + 1

/-! ## Helper lemmas for the toggle claims -/

theorem toggle_band_of_mem {band : String} {s : List String}
    (hmem : band ∈ s) (hlen : 1 < s.length) :
    toggle_band band s = s.filter (fun b => !(b == band)) := by
  simp [toggle_band, List.contains, hmem, hlen]

theorem toggle_band_of_not_mem {band : String} {s : List String}
    (hmem : band ∉ s) :
    toggle_band band s = s ++ [band] := by
  simp [toggle_band, List.contains, hmem]

theorem toggle_band_nodup {band : String} {s : List String} (h : s.Nodup) :
    (toggle_band band s).Nodup := by
  unfold toggle_band
  split
  · split
    · exact h.filter _
    · exact h
  · next hc =>
    have hnm : band ∉ s := fun hmem => hc (by simp [List.contains, hmem])
    refine List.nodup_append.mpr ⟨h, List.nodup_singleton band, ?_⟩
    intro a ha hb
    rw [List.mem_singleton] at hb
    exact hnm (hb ▸ ha)

theorem exists_mem_ne_of_one_lt_length {s : List String} (h : 1 < s.length)
    (hnd : s.Nodup) (band : String) : ∃ x ∈ s, x ≠ band := by
  match s, h, hnd with
  | a :: b :: t, _, hnd =>
    have hab : a ≠ b := by
      have := (List.nodup_cons.mp hnd).1
      intro he
      exact this (he ▸ List.mem_cons_self b t)
    by_cases ha : a = band
    · exact ⟨b, by simp, fun hb => hab (ha.trans hb.symm)⟩
    · exact ⟨a, by simp, ha⟩

theorem toggle_band_ne_nil {band : String} {s : List String}
    (hne : s ≠ []) (hnd : s.Nodup) : toggle_band band s ≠ [] := by
  unfold toggle_band
  split
  · split
    · next hlen =>
      obtain ⟨x, hx, hxb⟩ := exists_mem_ne_of_one_lt_length hlen hnd band
      intro hnil
      have hmemf : x ∈ s.filter (fun b => !(b == band)) := by
        simp [List.mem_filter, hx, hxb]
      rw [hnil] at hmemf
      exact absurd hmemf (List.not_mem_nil x)
    · exact hne
  · simp

theorem apply_toggles_ne_nil {init : List String}
    (hne : init ≠ []) (hnd : init.Nodup) (bands : List String) :
    apply_toggles init bands ≠ [] := by
  induction bands generalizing init with
  | nil => exact hne
  | cons b bs ih =>
    exact ih (toggle_band_ne_nil hne hnd) (toggle_band_nodup hnd)

/-! ## Selection resolution (`handle_state_click`, source lines 617-656)

`STATE_ABBREV` (source lines 65-78) is a dict from state name to 2-letter
code, modelled as an association list; `ABBREV_TO_STATE` (line 80) is the
reversed dict.  A plotly click payload delivers one point carrying optional
`customdata`, `text` and `location` fields. -/

/-- `STATE_ABBREV` from the source: state name to 2-letter abbreviation,
50 states plus the District of Columbia. -/
def STATE_ABBREV : List (String × String) :=
  [("Alabama", "AL"), ("Alaska", "AK"), ("Arizona", "AZ"), ("Arkansas", "AR"),
   ("California", "CA"), ("Colorado", "CO"), ("Connecticut", "CT"),
   ("Delaware", "DE"), ("District of Columbia", "DC"), ("Florida", "FL"),
   ("Georgia", "GA"), ("Hawaii", "HI"), ("Idaho", "ID"), ("Illinois", "IL"),
   ("Indiana", "IN"), ("Iowa", "IA"), ("Kansas", "KS"), ("Kentucky", "KY"),
   ("Louisiana", "LA"), ("Maine", "ME"), ("Maryland", "MD"),
   ("Massachusetts", "MA"), ("Michigan", "MI"), ("Minnesota", "MN"),
   ("Mississippi", "MS"), ("Missouri", "MO"), ("Montana", "MT"),
   ("Nebraska", "NE"), ("Nevada", "NV"), ("New Hampshire", "NH"),
   ("New Jersey", "NJ"), ("New Mexico", "NM"), ("New York", "NY"),
   ("North Carolina", "NC"), ("North Dakota", "ND"), ("Ohio", "OH"),
   ("Oklahoma", "OK"), ("Oregon", "OR"), ("Pennsylvania", "PA"),
   ("Rhode Island", "RI"), ("South Carolina", "SC"), ("South Dakota", "SD"),
   ("Tennessee", "TN"), ("Texas", "TX"), ("Utah", "UT"), ("Vermont", "VT"),
   ("Virginia", "VA"), ("Washington", "WA"), ("West Virginia", "WV"),
   ("Wisconsin", "WI"), ("Wyoming", "WY")]

/-- `ABBREV_TO_STATE = {v: k for k, v in STATE_ABBREV.items()}`. -/
def ABBREV_TO_STATE : List (String × String) :=
  STATE_ABBREV.map (fun p => (p.2, p.1))

/-- Membership test against the `STATE_ABBREV` dict keys
(`state_name in STATE_ABBREV` in Python). -/
def isKnownState (s : String) : Bool :=
  (STATE_ABBREV.lookup s).isSome

/-- The characters strictly before the first occurrence of `sep` in a
character list, or `none` when `sep` does not occur. -/
def splitBefore (sep : List Char) : List Char → Option (List Char)
  | [] => none
  | c :: cs =>
      if sep.isPrefixOf (c :: cs) then some []
      else
        match splitBefore sep cs with
        | some pre => some (c :: pre)
        | none => none

/-- `"<br>" in str(text)`: the `"<br>"` separator occurs in the text. -/
def hasBrTag (t : String) : Bool :=
  (splitBefore "<br>".data t.data).isSome

/-- `str(text).split("<br>")[0]`: the part of the text before the first
`"<br>"` separator (the whole text when the separator is absent). -/
def textBefore (t : String) : String :=
  match splitBefore "<br>".data t.data with
  | some pre => String.mk pre
  | none => t

/-- One entry of `clickData["points"]`: the payload fields that
`handle_state_click` inspects. -/
structure ClickPoint where
  customdata : Option (List String)
  text : Option String
  location : Option String

/-- The `handle_state_click` callback (source lines 617-656): resolve a map
click to the new `selected-state` store value.  `map_click = none` models a
falsy `clickData`; otherwise the first (and only) point of the payload is
inspected: a non-empty `customdata` is returned directly, then text of the
form `"Name<br>..."` with a known name before the separator, then a
`location` code found in `ABBREV_TO_STATE`; otherwise the prior selection is
returned. -/
def handle_state_click (map_click : Option ClickPoint)
    (current_state : Option String) : Option String :=
  match map_click with
  | none => current_state
  | some point =>
    match point.customdata with
    | some (c :: _) => some c
    | _ =>
      let t := point.text.getD ""
      let state_name := textBefore t
      if hasBrTag t && isKnownState state_name then
        some state_name
      else
        match point.location.bind (fun l => ABBREV_TO_STATE.lookup l) with
        | some st => some st
        | none => current_state

/-! ## Helper lemmas for selection resolution -/

theorem lookup_isSome_of_mem_fst {xs : List (String × String)} {st : String}
    (h : st ∈ xs.map Prod.fst) : (xs.lookup st).isSome = true := by
  induction xs with
  | nil => simp at h
  | cons x xs ih =>
    rw [List.map_cons] at h
    cases hbeq : (st == x.1) with
    | true => simp [List.lookup, hbeq]
    | false =>
      have hne : st ≠ x.1 := by simpa using hbeq
      simp only [List.lookup, hbeq]
      exact ih (by
        rcases List.mem_cons.mp h with h' | h'
        · exact absurd h' hne
        · exact h')

theorem mem_fst_of_lookup_swap {xs : List (String × String)} {l st : String}
    (h : (xs.map (fun p => (p.2, p.1))).lookup l = some st) :
    st ∈ xs.map Prod.fst := by
  induction xs with
  | nil => simp [List.lookup] at h
  | cons x xs ih =>
    rw [List.map_cons] at h
    cases hbeq : (l == x.2) with
    | true =>
      simp only [List.lookup, hbeq] at h
      rw [List.map_cons]
      exact List.mem_cons.mpr (Or.inl (Option.some.inj h).symm)
    | false =>
      simp only [List.lookup, hbeq] at h
      rw [List.map_cons]
      exact List.mem_cons.mpr (Or.inr (ih h))

theorem isKnownState_of_abbrev_lookup {l st : String}
    (h : ABBREV_TO_STATE.lookup l = some st) : isKnownState st = true :=
  lookup_isSome_of_mem_fst (mem_fst_of_lookup_swap h)

/-! ## Claim theorems: classifier, toggle, clock -/

/-- C5: `get_rate_band` is a deterministic total function on rates; on all
non-negative rates the six bands partition `[0, ∞)` with half-open lower
bounds (first band whose upper bound exceeds the rate wins, `"> 30"` is the
catch-all for rates ≥ 30), and in particular the rates 9.99, 10, 29.99 and 30
classify to `"< 10"`, `"10-15"`, `"25-30"` and `"> 30"` respectively. -/
theorem C5_get_rate_band_partition :
    (∀ r : ℚ, 0 ≤ r →
      ((get_rate_band r = "< 10" ↔ r < 10) ∧
       (get_rate_band r = "10-15" ↔ 10 ≤ r ∧ r < 15) ∧
       (get_rate_band r = "15-20" ↔ 15 ≤ r ∧ r < 20) ∧
       (get_rate_band r = "20-25" ↔ 20 ≤ r ∧ r < 25) ∧
       (get_rate_band r = "25-30" ↔ 25 ≤ r ∧ r < 30) ∧
       (get_rate_band r = "> 30" ↔ 30 ≤ r))) ∧
    get_rate_band (9.99 : ℚ) = "< 10" ∧
    get_rate_band (10 : ℚ) = "10-15" ∧
    get_rate_band (29.99 : ℚ) = "25-30" ∧
    get_rate_band (30 : ℚ) = "> 30" := by
  refine ⟨?_, by norm_num [get_rate_band], by norm_num [get_rate_band],
    by norm_num [get_rate_band], by norm_num [get_rate_band]⟩
  intro r _
  unfold get_rate_band
  split_ifs <;>
    refine ⟨?_, ?_, ?_, ?_, ?_, ?_⟩ <;> simp <;>
    first
      | linarith
      | (intros; linarith)
      | (constructor <;> linarith)

/-- Witness for C5 at the concrete rate 9.99. -/
theorem C5_get_rate_band_partition_witness :
    (0 : ℚ) ≤ 9.99 ∧
    ((get_rate_band (9.99 : ℚ) = "< 10" ↔ (9.99 : ℚ) < 10) ∧
     (get_rate_band (9.99 : ℚ) = "10-15" ↔ 10 ≤ (9.99 : ℚ) ∧ (9.99 : ℚ) < 15) ∧
     (get_rate_band (9.99 : ℚ) = "15-20" ↔ 15 ≤ (9.99 : ℚ) ∧ (9.99 : ℚ) < 20) ∧
     (get_rate_band (9.99 : ℚ) = "20-25" ↔ 20 ≤ (9.99 : ℚ) ∧ (9.99 : ℚ) < 25) ∧
     (get_rate_band (9.99 : ℚ) = "25-30" ↔ 25 ≤ (9.99 : ℚ) ∧ (9.99 : ℚ) < 30) ∧
     (get_rate_band (9.99 : ℚ) = "> 30" ↔ 30 ≤ (9.99 : ℚ))) :=
  ⟨by norm_num, C5_get_rate_band_partition.1 9.99 (by norm_num)⟩

/-- C4: for every non-empty duplicate-free active-band list `s` and band `b`,
`toggle_band` removes `b` when `b ∈ s` and `s` has more than one member,
leaves `s` unchanged when `s = [b]`, appends `b` when `b ∉ s`, and never
returns an empty list; consequently any sequence of legend clicks starting
from the default of all 6 bands leaves the active set non-empty. -/
theorem C4_toggle_band_cases :
    (∀ (s : List String) (b : String), s ≠ [] → s.Nodup →
      ((b ∈ s → 1 < s.length →
          ∀ x, x ∈ toggle_band b s ↔ x ∈ s ∧ x ≠ b) ∧
       (s = [b] → toggle_band b s = s) ∧
       (b ∉ s → ∀ x, x ∈ toggle_band b s ↔ x ∈ s ∨ x = b) ∧
       toggle_band b s ≠ [])) ∧
    (∀ clicks : List String, apply_toggles BAND_ORDER clicks ≠ []) := by
  constructor
  · intro s b hne hnd
    refine ⟨?_, ?_, ?_, toggle_band_ne_nil hne hnd⟩
    · intro hmem hlen x
      rw [toggle_band_of_mem hmem hlen, List.mem_filter]
      simp
    · rintro rfl
      simp [toggle_band, List.contains]
    · intro hmem x
      rw [toggle_band_of_not_mem hmem, List.mem_append]
      simp
  · intro clicks
    exact apply_toggles_ne_nil (by decide) (by decide) clicks

/-- Witness for C4 at `s = ["< 10", "10-15"]`, `b = "< 10"`, `x = "10-15"`. -/
theorem C4_toggle_band_cases_witness :
    ((["< 10", "10-15"] : List String) ≠ [] ∧
      (["< 10", "10-15"] : List String).Nodup) ∧
    ("< 10" ∈ (["< 10", "10-15"] : List String) ∧
      1 < (["< 10", "10-15"] : List String).length) ∧
    ("10-15" ∈ toggle_band "< 10" ["< 10", "10-15"] ↔
      "10-15" ∈ (["< 10", "10-15"] : List String) ∧ "10-15" ≠ "< 10") :=
  ⟨⟨by decide, by decide⟩, ⟨by decide, by decide⟩,
    (C4_toggle_band_cases.1 ["< 10", "10-15"] "< 10" (by decide)
      (by decide)).1 (by decide) (by decide) "10-15"⟩

/-- C9: starting from the full default band list, toggling any band of
`BAND_ORDER` twice restores the original active set (as a set of bands). -/
theorem C9_toggle_band_involutive_from_default :
    ∀ b ∈ BAND_ORDER, ∀ x : String,
      x ∈ toggle_band b (toggle_band b BAND_ORDER) ↔ x ∈ BAND_ORDER := by
  intro b hb x
  have h1 : toggle_band b BAND_ORDER = BAND_ORDER.filter (fun c => !(c == b)) :=
    toggle_band_of_mem hb (by decide)
  have h2 : b ∉ BAND_ORDER.filter (fun c => !(c == b)) := by
    simp [List.mem_filter]
  rw [h1, toggle_band_of_not_mem h2, List.mem_append, List.mem_filter]
  constructor
  · rintro (⟨hx, _⟩ | hx)
    · exact hx
    · rw [List.mem_singleton] at hx
      exact hx ▸ hb
  · intro hx
    by_cases hxb : x = b
    · right
      simp [hxb]
    · left
      exact ⟨hx, by simp [hxb]⟩

/-- Witness for C9 at `b = "15-20"`, `x = "< 10"`. -/
theorem C9_toggle_band_involutive_from_default_witness :
    "15-20" ∈ BAND_ORDER ∧
    ("< 10" ∈ toggle_band "15-20" (toggle_band "15-20" BAND_ORDER) ↔
      "< 10" ∈ BAND_ORDER) :=
  ⟨by decide, C9_toggle_band_involutive_from_default "15-20" (by decide) "< 10"⟩

/-- C8: for `selectedYear ∈ [2000, 2023]`, a tick while Running (interval
enabled and at least one interval fired) advances the year by 1, except that
2023 wraps to 2000, and the result stays in `[2000, 2023]`; a tick while
Stopped (interval disabled), or before any interval fired, leaves the year
unchanged. -/
theorem C8_advance_year_step :
    ∀ (y : ℤ) (n : ℕ), 2000 ≤ y → y ≤ 2023 →
      (advance_year (some n) y false = if y = 2023 then 2000 else y + 1) ∧
      2000 ≤ advance_year (some n) y false ∧
      advance_year (some n) y false ≤ 2023 ∧
      advance_year (some n) y true = y ∧
      advance_year none y false = y := by
  intro y n h1 h2
  have hrun : advance_year (some n) y false = if y ≥ 2023 then 2000 else y + 1 := by
    simp [advance_year]
  refine ⟨?_, ?_, ?_, by simp [advance_year], by simp [advance_year]⟩ <;>
    rw [hrun] <;> split_ifs <;> omega

/-- Witness for C8 at year 2023 (the wrap case). -/
theorem C8_advance_year_step_witness :
    ((2000 : ℤ) ≤ 2023 ∧ (2023 : ℤ) ≤ 2023) ∧
    ((advance_year (some 0) 2023 false = if (2023 : ℤ) = 2023 then 2000 else 2023 + 1) ∧
     (2000 : ℤ) ≤ advance_year (some 0) 2023 false ∧
     advance_year (some 0) 2023 false ≤ 2023 ∧
     advance_year (some 0) 2023 true = 2023 ∧
     advance_year none 2023 false = 2023) :=
  ⟨⟨by decide, by decide⟩, C8_advance_year_step 2023 0 (by decide) (by decide)⟩

/-! ## The long-format dataset rows

One row of `df_suicide_focus` (the melt of the source table restricted to
years ≥ 2000, lines 118-156 and 174): state name, year, rate, region and
2-letter abbreviation.  The `Rate_Band` column is `get_rate_band` of the
rate (line 145), so it is kept derived rather than stored.  The dataset
itself is an external collaborator (a CSV not in the repository), so the
derivations below are functions of an arbitrary record list. -/

structure Record where
  state : String
  year : ℤ
  rate : ℚ
  region : String
  abbr : String
deriving DecidableEq

/-! ## Rank derivation (`update_ranking`, source lines 707-722) -/

/-- Semantics of the pandas `Series.rank(ascending=False)` call on line 717:
the default method is `average`, so a value's rank is the count of strictly
greater values plus the average of the positions its tie group occupies,
`count(strictly greater) + (count(equal) + 1) / 2`. -/
def avgRankDesc (rates : List ℚ) (r : ℚ) : ℚ :=
  (rates.countP (fun x => decide (r < x)) : ℚ) +
    ((rates.countP (fun x => decide (x = r)) : ℚ) + 1) / 2

/-- The `update_ranking` callback: `none` models the empty-string output,
`some (rank, n)` the string `"Rank in {year}: #{rank} of {n}"`.  The rank
column is the pandas average rank truncated by `.astype(int)`; ranks are
≥ 1, so truncation toward zero is the floor. -/
def update_ranking (state_name : Option String) (year : ℤ)
    (records : List Record) : Option (ℤ × ℕ) :=
  match state_name with
  | none => none
  | some s =>
    match (records.filter (fun r => decide (r.year = year))).filter
        (fun r => decide (r.state = s)) with
    | [] => none
    | m :: _ =>
        some (⌊avgRankDesc ((records.filter (fun r => decide (r.year = year))).map
            (fun r => r.rate)) m.rate⌋,
          (records.filter (fun r => decide (r.year = year))).length)

/-- Truncating the average descending rank gives
`count(greater) + (count(equal) + 1) / 2` with natural division. -/
theorem floor_avgRankDesc (g k : ℕ) :
    ⌊(g : ℚ) + ((k : ℚ) + 1) / 2⌋ = (g : ℤ) + ((k + 1) / 2 : ℕ) := by
  have h : (g : ℚ) + ((k : ℚ) + 1) / 2
      = ((g : ℤ) : ℚ) + (((k + 1 : ℕ) : ℚ) / ((2 : ℕ) : ℚ)) := by
    push_cast
    ring
  rw [h, Int.floor_int_add, Rat.floor_natCast_div_natCast]
  norm_num

/-! ## Claim theorems: selection resolution -/

/-- C7: for every prior selection and every click payload in which no shape
resolves to a recognized state (no non-empty `customdata`, no text whose part
before a `"<br>"` separator is a known state name, no location matching a
known abbreviation), `handle_state_click` returns the prior selection
unchanged. -/
theorem C7_unresolvable_click_retains_selection
    (point : ClickPoint) (current : Option String)
    (hcd : point.customdata = none ∨ point.customdata = some [])
    (htxt : hasBrTag (point.text.getD "") = false ∨
      isKnownState (textBefore (point.text.getD "")) = false)
    (hloc : point.location.bind (fun l => ABBREV_TO_STATE.lookup l) = none) :
    handle_state_click (some point) current = current := by
  obtain ⟨cd, t, loc⟩ := point
  simp only at hcd htxt hloc
  have hcond : (hasBrTag (t.getD "") &&
      isKnownState (textBefore (t.getD ""))) = false := by
    rcases htxt with h | h
    · rw [h, Bool.false_and]
    · rw [h, Bool.and_false]
  rcases hcd with h | h <;> subst h <;>
    · simp only [handle_state_click]
      rw [if_neg (by rw [hcond]; simp)]
      rw [hloc]

/-- Witness for C7: `selectedState = "Texas"` survives a click whose point
has no customdata, unparseable text and an unknown location code. -/
theorem C7_unresolvable_click_retains_selection_witness :
    (((⟨none, some "empty space", some "ZZ"⟩ : ClickPoint).customdata = none ∨
        (⟨none, some "empty space", some "ZZ"⟩ : ClickPoint).customdata = some []) ∧
      (hasBrTag (((⟨none, some "empty space", some "ZZ"⟩ : ClickPoint)).text.getD "") = false ∨
        isKnownState (textBefore
          (((⟨none, some "empty space", some "ZZ"⟩ : ClickPoint)).text.getD "")) = false) ∧
      ((⟨none, some "empty space", some "ZZ"⟩ : ClickPoint).location.bind
        (fun l => ABBREV_TO_STATE.lookup l) = none)) ∧
    handle_state_click (some ⟨none, some "empty space", some "ZZ"⟩)
      (some "Texas") = some "Texas" :=
  ⟨⟨Or.inl rfl, Or.inl rfl, rfl⟩,
    C7_unresolvable_click_retains_selection _ _ (Or.inl rfl) (Or.inl rfl) rfl⟩

/-- C3 counterexample: a click point whose `customdata` holds the unknown
name `"Atlantis"` makes `handle_state_click` return `some "Atlantis"`, a
non-null value outside the known state names — the claim as stated is false. -/
theorem C3_customdata_counterexample :
    handle_state_click (some ⟨some ["Atlantis"], none, none⟩) none
        = some "Atlantis" ∧
    isKnownState "Atlantis" = false := by
  exact ⟨rfl, rfl⟩

/-- C3 (amended): provided the click payload carries no usable `customdata`
(the field is absent or empty — the app's own map traces never set one), and
the prior selection is null or a known state name, `handle_state_click`
returns null or a known state name, on a point payload as well as on a falsy
`clickData`.  The raw-`customdata` branch is excluded: it returns the payload
value unvalidated. -/
theorem C3_resolution_preserves_validity
    (point : ClickPoint) (current : Option String)
    (hcur : current = none ∨ ∃ s, current = some s ∧ isKnownState s = true)
    (hcd : point.customdata = none ∨ point.customdata = some []) :
    (handle_state_click (some point) current = none ∨
      ∃ s, handle_state_click (some point) current = some s ∧
        isKnownState s = true) ∧
    (handle_state_click none current = none ∨
      ∃ s, handle_state_click none current = some s ∧
        isKnownState s = true) := by
  refine ⟨?_, hcur⟩
  obtain ⟨cd, t, loc⟩ := point
  simp only at hcd
  rcases hcd with h | h <;> subst h <;>
    · simp only [handle_state_click]
      by_cases hc : (hasBrTag (t.getD "") &&
          isKnownState (textBefore (t.getD ""))) = true
      · rw [if_pos hc]
        rw [Bool.and_eq_true] at hc
        exact Or.inr ⟨_, rfl, hc.2⟩
      · rw [if_neg hc]
        cases hbind : loc.bind (fun l => ABBREV_TO_STATE.lookup l) with
        | none => exact hcur
        | some st =>
          obtain ⟨l, _, hlk⟩ := Option.bind_eq_some.mp hbind
          exact Or.inr ⟨st, rfl, isKnownState_of_abbrev_lookup hlk⟩

/-- Witness for C3 (amended): prior `"Texas"`, a text-shaped payload
resolving to `"Ohio"`. -/
theorem C3_resolution_preserves_validity_witness :
    ((some "Texas" : Option String) = none ∨
      ∃ s, (some "Texas" : Option String) = some s ∧ isKnownState s = true) ∧
    (((⟨none, some "Ohio<br>Rate: 10.0 per 100k", none⟩ : ClickPoint).customdata = none ∨
      (⟨none, some "Ohio<br>Rate: 10.0 per 100k", none⟩ : ClickPoint).customdata = some [])) ∧
    ((handle_state_click (some ⟨none, some "Ohio<br>Rate: 10.0 per 100k", none⟩)
        (some "Texas") = none ∨
      ∃ s, handle_state_click (some ⟨none, some "Ohio<br>Rate: 10.0 per 100k", none⟩)
          (some "Texas") = some s ∧ isKnownState s = true) ∧
     (handle_state_click none (some "Texas") = none ∨
      ∃ s, handle_state_click none (some "Texas") = some s ∧
        isKnownState s = true)) :=
  ⟨Or.inr ⟨"Texas", rfl, rfl⟩, Or.inl rfl,
    C3_resolution_preserves_validity _ _ (Or.inr ⟨"Texas", rfl, rfl⟩) (Or.inl rfl)⟩

/-! ## Map view derivation (`update_map`, source lines 505-614)

Only the hover-relevant content of the figure is modelled: for each trace,
its `visible` flag and the list of hover texts it carries.  `Hover.info`
stands for the full text `"{State}<br>Rate: {rate} per 100k<br>Region:
{region}"` of the per-band choropleth traces (lines 529-530); the rendered
rate keeps one decimal, which is exact for the one-decimal source data.
`Hover.filteredNote` stands for `"{State} (filtered)"` of the extra trace
covering inactive bands (line 546).  The abbreviation-label `Scattergeo`
traces and the selected-state outline trace set `hoverinfo="skip"` and are
omitted. -/

inductive Hover
  | info (state : String) (rate : ℚ) (region : String)
  | filteredNote (state : String)
deriving DecidableEq

structure MapTrace where
  visible : Bool
  hovers : List Hover
deriving DecidableEq

/-- The hover-relevant traces built by the `update_map` callback: one
choropleth per band in `BAND_ORDER`, visible only when the band is active
(line 531), followed by one always-visible trace for the states of inactive
bands when there are any (lines 536-548).  The selected state only adds an
outline trace with hover skipped, so it does not occur here. -/
def update_map (year : ℤ) (active_bands : List String)
    (_selected_state : Option String) (records : List Record) : List MapTrace :=
  BAND_ORDER.map (fun band =>
    { visible := active_bands.contains band,
      hovers := ((records.filter (fun r => decide (r.year = year))).filter
          (fun r => decide (get_rate_band r.rate = band))).map
        (fun r => Hover.info r.state r.rate r.region) }) ++
  (if ((records.filter (fun r => decide (r.year = year))).filter
        (fun r => !(active_bands.contains (get_rate_band r.rate)))).length > 0 then
    [{ visible := true,
       hovers := ((records.filter (fun r => decide (r.year = year))).filter
          (fun r => !(active_bands.contains (get_rate_band r.rate)))).map
        (fun r => Hover.filteredNote r.state) }]
  else [])

theorem get_rate_band_mem_BAND_ORDER (r : ℚ) : get_rate_band r ∈ BAND_ORDER := by
  unfold get_rate_band BAND_ORDER
  split_ifs <;> simp

/-! ## Claim theorems: rank derivation -/

/-- Three states sharing the same rate in the same year. -/
def tiedRecords : List Record :=
  [⟨"Alabama", 2020, 20, "East South Central", "AL"⟩,
   ⟨"Alaska", 2020, 20, "Pacific", "AK"⟩,
   ⟨"Arizona", 2020, 20, "Mountain", "AZ"⟩]

/-- C1 counterexample: with three states tied at the maximum rate 20 in
2020, the code reports rank 2 (truncated average rank) for the selected
state, while 1 plus the number of strictly greater rates is 1 — the claimed
tie rule fails. -/
theorem C1_rank_counterexample :
    update_ranking (some "Alabama") 2020 tiedRecords = some (2, 3) ∧
    1 + ((tiedRecords.filter (fun r => decide (r.year = 2020))).countP
        (fun r => decide ((20 : ℚ) < r.rate)) : ℤ) = 1 ∧
    (2 : ℤ) ≠ 1 := by
  refine ⟨?_, by rfl, by decide⟩
  have hstep : update_ranking (some "Alabama") 2020 tiedRecords
      = some (⌊avgRankDesc ([20, 20, 20] : List ℚ) 20⌋, 3) := rfl
  rw [hstep]
  have h2 : avgRankDesc ([20, 20, 20] : List ℚ) 20 = ((0 : ℚ) + ((3 : ℚ) + 1) / 2) := by
    unfold avgRankDesc
    norm_num
  rw [h2]
  norm_num

/-- C1 (amended): when the selected state has a record in the selected year
(`m` heads the matching rows), the reported rank is the truncated pandas
average rank `g + (k + 1) / 2` (natural division), where `g` counts records
of that year with a strictly greater rate and `k` counts records with an
equal rate; this agrees with the claimed `1 + g` whenever at most two
records share the rate, and the reported total is the number of records
with data that year. -/
theorem C1_update_ranking_truncated_avg_rank
    (s : String) (year : ℤ) (records : List Record) (m : Record)
    (rest : List Record)
    (hm : (records.filter (fun r => decide (r.year = year))).filter
        (fun r => decide (r.state = s)) = m :: rest) :
    update_ranking (some s) year records =
      some ((((records.filter (fun r => decide (r.year = year))).countP
            (fun r => decide (m.rate < r.rate)) +
          ((records.filter (fun r => decide (r.year = year))).countP
            (fun r => decide (r.rate = m.rate)) + 1) / 2 : ℕ) : ℤ),
        (records.filter (fun r => decide (r.year = year))).length) ∧
    ((records.filter (fun r => decide (r.year = year))).countP
        (fun r => decide (r.rate = m.rate)) ≤ 2 →
      ((((records.filter (fun r => decide (r.year = year))).countP
            (fun r => decide (m.rate < r.rate)) +
          ((records.filter (fun r => decide (r.year = year))).countP
            (fun r => decide (r.rate = m.rate)) + 1) / 2 : ℕ) : ℤ)
        = 1 + (records.filter (fun r => decide (r.year = year))).countP
            (fun r => decide (m.rate < r.rate)))) := by
  set df_year := records.filter (fun r => decide (r.year = year)) with hdf
  set g := df_year.countP (fun r => decide (m.rate < r.rate)) with hg
  set k := df_year.countP (fun r => decide (r.rate = m.rate)) with hk
  have hk1 : 1 ≤ k := by
    have hmem' : m ∈ df_year.filter (fun r => decide (r.state = s)) := by
      rw [hm]
      exact List.mem_cons_self m rest
    have hmem : m ∈ df_year := List.mem_of_mem_filter hmem'
    rw [hk]
    exact List.countP_pos_iff.mpr ⟨m, hmem, by simp⟩
  constructor
  · have hstep : update_ranking (some s) year records
        = some (⌊avgRankDesc (df_year.map (fun r => r.rate)) m.rate⌋,
            df_year.length) := by
      simp only [update_ranking, ← hdf]
      rw [hm]
    have hmap : (df_year.map (fun r => r.rate)).countP
          (fun x => decide (m.rate < x)) = g := by
      rw [hg, List.countP_map]
      rfl
    have hmap' : (df_year.map (fun r => r.rate)).countP
          (fun x => decide (x = m.rate)) = k := by
      rw [hk, List.countP_map]
      rfl
    have havg : avgRankDesc (df_year.map (fun r => r.rate)) m.rate
        = (g : ℚ) + ((k : ℚ) + 1) / 2 := by
      unfold avgRankDesc
      rw [hmap, hmap']
    rw [hstep, havg, floor_avgRankDesc]
    norm_cast
  · intro hk2
    omega

/-- Records for the rank witness: two states with distinct rates in 2023. -/
def rankWitnessRecords : List Record :=
  [⟨"Nevada", 2023, 25, "Mountain", "NV"⟩,
   ⟨"Utah", 2023, 21, "Mountain", "UT"⟩]

/-- Witness for C1 (amended): Utah in 2023 among two states, one rate
strictly greater, no tie — rank 2 of 2, and the `1 + g` form agrees. -/
theorem C1_update_ranking_truncated_avg_rank_witness :
    ((rankWitnessRecords.filter (fun r => decide (r.year = 2023))).filter
        (fun r => decide (r.state = "Utah"))
      = [⟨"Utah", 2023, 21, "Mountain", "UT"⟩]) ∧
    (update_ranking (some "Utah") 2023 rankWitnessRecords = some (2, 2) ∧
      ((1 : ℕ) ≤ 2 → (2 : ℤ) = 1 + 1)) :=
  ⟨rfl, C1_update_ranking_truncated_avg_rank "Utah" 2023 rankWitnessRecords
    ⟨"Utah", 2023, 21, "Mountain", "UT"⟩ [] rfl⟩

/-- C10: a non-null selected state with no record in the selected year
produces the empty output `none` — the same output as the no-state-selected
case. -/
theorem C10_update_ranking_empty_on_missing_state
    (s : String) (year : ℤ) (records : List Record)
    (h : (records.filter (fun r => decide (r.year = year))).filter
        (fun r => decide (r.state = s)) = []) :
    update_ranking (some s) year records = none ∧
    update_ranking none year records = none := by
  refine ⟨?_, rfl⟩
  simp only [update_ranking]
  rw [h]

/-- Witness for C10: Nevada has no 2023 record in a one-record dataset. -/
theorem C10_update_ranking_empty_on_missing_state_witness :
    (((([⟨"Alaska", 2023, 28, "Pacific", "AK"⟩] : List Record).filter
        (fun r => decide (r.year = 2023))).filter
        (fun r => decide (r.state = "Nevada"))) = []) ∧
    (update_ranking (some "Nevada") 2023 [⟨"Alaska", 2023, 28, "Pacific", "AK"⟩] = none ∧
     update_ranking none 2023 [⟨"Alaska", 2023, 28, "Pacific", "AK"⟩] = none) :=
  ⟨rfl, C10_update_ranking_empty_on_missing_state "Nevada" 2023
    [⟨"Alaska", 2023, 28, "Pacific", "AK"⟩] rfl⟩

/-! ## Detail stats derivation (`update_state_stats`, source lines 660-703)

The callback filters the records to the selected state, sorts them by year,
and reports min/max/mean, the years of the min and max (pandas `idxmin` /
`idxmax`: the first row attaining the extremum in row order), and the
largest increase and decrease of the `diff()` column (consecutive-row rate
differences; the first row's diff is NaN and pandas `idxmax`/`idxmin` skip
it, so the first year is excluded).  A list with a single row makes
`idxmax` raise on the all-NaN diff column, modelled as `none`. -/

section FirstBy

variable {α : Type}

/-- pandas `idxmin`: the first element attaining the minimum of `f`. -/
def firstMinBy (f : α → ℚ) : List α → Option α
  | [] => none
  | x :: xs =>
    match firstMinBy f xs with
    | none => some x
    | some b => if f x ≤ f b then some x else some b

/-- pandas `idxmax`: the first element attaining the maximum of `f`. -/
def firstMaxBy (f : α → ℚ) : List α → Option α
  | [] => none
  | x :: xs =>
    match firstMaxBy f xs with
    | none => some x
    | some b => if f b ≤ f x then some x else some b

theorem firstMinBy_eq_none {f : α → ℚ} {l : List α} :
    firstMinBy f l = none ↔ l = [] := by
  cases l with
  | nil => simp [firstMinBy]
  | cons x xs =>
    cases h : firstMinBy f xs with
    | none => simp [firstMinBy, h]
    | some b =>
      simp only [firstMinBy, h]
      split <;> simp

theorem firstMaxBy_eq_none {f : α → ℚ} {l : List α} :
    firstMaxBy f l = none ↔ l = [] := by
  cases l with
  | nil => simp [firstMaxBy]
  | cons x xs =>
    cases h : firstMaxBy f xs with
    | none => simp [firstMaxBy, h]
    | some b =>
      simp only [firstMaxBy, h]
      split <;> simp

/-- `firstMinBy` returns a global minimum, and every element strictly before
it in the list is strictly larger. -/
theorem firstMinBy_spec {f : α → ℚ} :
    ∀ {l : List α} {a : α}, firstMinBy f l = some a →
      ∃ pre suf, l = pre ++ a :: suf ∧ (∀ p ∈ pre, f a < f p) ∧
        ∀ q ∈ l, f a ≤ f q := by
  intro l
  induction l with
  | nil => intro a h; simp [firstMinBy] at h
  | cons x xs ih =>
    intro a h
    rw [firstMinBy] at h
    cases hxs : firstMinBy f xs with
    | none =>
      rw [hxs] at h
      have hnil : xs = [] := firstMinBy_eq_none.mp hxs
      cases h
      subst hnil
      exact ⟨[], [], rfl, by simp, by simp⟩
    | some b =>
      rw [hxs] at h
      replace h : (if f x ≤ f b then some x else some b) = some a := h
      obtain ⟨pre, suf, heq, hpre, hall⟩ := ih hxs
      by_cases hle : f x ≤ f b
      · rw [if_pos hle] at h
        cases h
        refine ⟨[], xs, rfl, by simp, ?_⟩
        intro q hq
        rcases List.mem_cons.mp hq with rfl | hq'
        · exact le_refl _
        · exact le_trans hle (hall q hq')
      · rw [if_neg hle] at h
        cases h
        push_neg at hle
        refine ⟨x :: pre, suf, by rw [heq]; rfl, ?_, ?_⟩
        · intro p hp
          rcases List.mem_cons.mp hp with rfl | hp'
          · exact hle
          · exact hpre p hp'
        · intro q hq
          rcases List.mem_cons.mp hq with rfl | hq'
          · exact le_of_lt hle
          · exact hall q hq'

/-- `firstMaxBy` returns a global maximum, and every element strictly before
it in the list is strictly smaller. -/
theorem firstMaxBy_spec {f : α → ℚ} :
    ∀ {l : List α} {a : α}, firstMaxBy f l = some a →
      ∃ pre suf, l = pre ++ a :: suf ∧ (∀ p ∈ pre, f p < f a) ∧
        ∀ q ∈ l, f q ≤ f a := by
  intro l
  induction l with
  | nil => intro a h; simp [firstMaxBy] at h
  | cons x xs ih =>
    intro a h
    rw [firstMaxBy] at h
    cases hxs : firstMaxBy f xs with
    | none =>
      rw [hxs] at h
      have hnil : xs = [] := firstMaxBy_eq_none.mp hxs
      cases h
      subst hnil
      exact ⟨[], [], rfl, by simp, by simp⟩
    | some b =>
      rw [hxs] at h
      replace h : (if f b ≤ f x then some x else some b) = some a := h
      obtain ⟨pre, suf, heq, hpre, hall⟩ := ih hxs
      by_cases hle : f b ≤ f x
      · rw [if_pos hle] at h
        cases h
        refine ⟨[], xs, rfl, by simp, ?_⟩
        intro q hq
        rcases List.mem_cons.mp hq with rfl | hq'
        · exact le_refl _
        · exact le_trans (hall q hq') hle
      · rw [if_neg hle] at h
        cases h
        push_neg at hle
        refine ⟨x :: pre, suf, by rw [heq]; rfl, ?_, ?_⟩
        · intro p hp
          rcases List.mem_cons.mp hp with rfl | hp'
          · exact hle
          · exact hpre p hp'
        · intro q hq
          rcases List.mem_cons.mp hq with rfl | hq'
          · exact le_of_lt hle
          · exact hall q hq'

end FirstBy

/-- Insertion step of `sort_values("Year")`. -/
def insertByYear (a : Record) : List Record → List Record
  | [] => [a]
  | b :: bs => if a.year ≤ b.year then a :: b :: bs else b :: insertByYear a bs

/-- `df.sort_values("Year")`: sort record rows by ascending year. -/
def sortByYear (l : List Record) : List Record :=
  l.foldr insertByYear []

/-- `df_state = df_suicide_focus[df_suicide_focus["State"] == state_name]
.sort_values("Year")` (source line 671). -/
def stateRows (s : String) (records : List Record) : List Record :=
  sortByYear (records.filter (fun r => decide (r.state = s)))

/-- The `diff()` column of source line 684 paired with its row: for each
consecutive row pair, the later row together with its rate change from the
previous row.  The first row, whose diff is NaN, does not appear. -/
def yearDeltas (l : List Record) : List (Record × ℚ) :=
  (l.zip l.tail).map (fun p => (p.2, p.2.rate - p.1.rate))

/-- The view model of the `update_state_stats` callback. -/
inductive StatsView
  | prompt
  | noData (state : String)
  | stats (state : String) (minRate : ℚ) (minYear : ℤ) (maxRate : ℚ)
      (maxYear : ℤ) (avgRate : ℚ) (incChange : ℚ) (incYear : ℤ)
      (decChange : ℚ) (decYear : ℤ)

/-- The stats computation on the filtered, year-sorted rows of one state:
`idxmin`/`idxmax` of the rate column with the min/max/mean, then
`idxmax`/`idxmin` of the diff column.  The displayed year pair of a change
row with year `y` is `(y - 1) → y` (source lines 698, 701). -/
def state_stats_core (s : String) (dfState : List Record) : Option StatsView :=
  if dfState = [] then some (.noData s)
  else
    match firstMinBy (fun r => r.rate) dfState,
        firstMaxBy (fun r => r.rate) dfState,
        firstMaxBy (fun d => d.2) (yearDeltas dfState),
        firstMinBy (fun d => d.2) (yearDeltas dfState) with
    | some mn, some mx, some inc, some dec =>
        some (.stats s mn.rate mn.year mx.rate mx.year
          ((dfState.map (fun r => r.rate)).sum / (dfState.length : ℚ))
          inc.2 inc.1.year dec.2 dec.1.year)
    | _, _, _, _ => none

/-- The `update_state_stats` callback: `.prompt` models the
click-a-state placeholder, `.noData` the `"No data for {state}"` message,
and `none` the `ValueError` pandas raises from `idxmax` on an all-NaN diff
column (a single-row series). -/
def update_state_stats (state_name : Option String) (records : List Record) :
    Option StatsView :=
  match state_name with
  | none => some .prompt
  | some s => state_stats_core s (stateRows s records)

/-- Consecutive pairs of a `Chain'`-related list are members related by the
chain relation. -/
theorem zip_tail_mem_chain {R : Record → Record → Prop} :
    ∀ {l : List Record}, l.Chain' R →
      ∀ p ∈ l.zip l.tail, p.1 ∈ l ∧ p.2 ∈ l ∧ R p.1 p.2 := by
  intro l
  induction l with
  | nil =>
    intro _ p hp
    simp at hp
  | cons x xs ih =>
    intro hch p hp
    cases xs with
    | nil => simp at hp
    | cons y ys =>
      rw [List.chain'_cons] at hch
      simp only [List.tail_cons, List.zip_cons_cons] at hp
      rcases List.mem_cons.mp hp with rfl | hp'
      · exact ⟨by simp, by simp, hch.1⟩
      · obtain ⟨h1, h2, h3⟩ := ih hch.2 p hp'
        exact ⟨List.mem_cons_of_mem _ h1, List.mem_cons_of_mem _ h2, h3⟩

/-! ## Claim theorems: map hover texts -/

/-- A single 2023 record whose band `"25-30"` can be filtered out. -/
def alaskaRecords : List Record :=
  [⟨"Alaska", 2023, 28, "Pacific", "AK"⟩]

/-- C2 counterexample: with Alaska (rate 28, band `"25-30"`) filtered out by
`active_bands = ["< 10"]`, no visible trace of the map carries the full
hover text with rate and region — the visible hover is only the
`"(filtered)"` note, so the claim is false for filtered-out states. -/
theorem C2_hover_counterexample :
    (⟨"Alaska", 2023, 28, "Pacific", "AK"⟩ : Record)
        ∈ alaskaRecords.filter (fun r => decide (r.year = 2023)) ∧
    ¬ ∃ tr ∈ update_map 2023 ["< 10"] none alaskaRecords,
        tr.visible = true ∧ Hover.info "Alaska" 28 "Pacific" ∈ tr.hovers := by
  exact ⟨by decide, by decide⟩

/-- C2 (amended): a state of the selected year gets the full hover text
(state, exact rate, region) on a visible trace exactly when its band is
active; when its band is inactive the visible hover is the state name with
the filtered note, and every trace carrying its full hover text is
invisible. -/
theorem C2_full_hover_only_for_active_bands
    (year : ℤ) (active_bands : List String) (sel : Option String)
    (records : List Record) (r : Record)
    (hr : r ∈ records.filter (fun x => decide (x.year = year))) :
    (active_bands.contains (get_rate_band r.rate) = true →
      ∃ tr ∈ update_map year active_bands sel records,
        tr.visible = true ∧ Hover.info r.state r.rate r.region ∈ tr.hovers) ∧
    (active_bands.contains (get_rate_band r.rate) = false →
      (∃ tr ∈ update_map year active_bands sel records,
        tr.visible = true ∧ Hover.filteredNote r.state ∈ tr.hovers) ∧
      ∀ tr ∈ update_map year active_bands sel records,
        Hover.info r.state r.rate r.region ∈ tr.hovers →
          tr.visible = false) := by
  have hb0 : get_rate_band r.rate ∈ BAND_ORDER := get_rate_band_mem_BAND_ORDER r.rate
  constructor
  · intro hact
    refine ⟨{ visible := active_bands.contains (get_rate_band r.rate),
              hovers := ((records.filter (fun x => decide (x.year = year))).filter
                  (fun x => decide (get_rate_band x.rate = get_rate_band r.rate))).map
                (fun x => Hover.info x.state x.rate x.region) },
      List.mem_append_left _ (List.mem_map_of_mem _ hb0), hact, ?_⟩
    exact List.mem_map_of_mem _ (List.mem_filter.mpr ⟨hr, by simp⟩)
  · intro hinact
    have hrin : r ∈ (records.filter (fun x => decide (x.year = year))).filter
        (fun x => !(active_bands.contains (get_rate_band x.rate))) :=
      List.mem_filter.mpr ⟨hr, by rw [hinact]; rfl⟩
    have hpos : ((records.filter (fun x => decide (x.year = year))).filter
        (fun x => !(active_bands.contains (get_rate_band x.rate)))).length > 0 :=
      List.length_pos.mpr (List.ne_nil_of_mem hrin)
    constructor
    · refine ⟨{ visible := true,
                hovers := ((records.filter (fun x => decide (x.year = year))).filter
                    (fun x => !(active_bands.contains (get_rate_band x.rate)))).map
                  (fun x => Hover.filteredNote x.state) }, ?_, rfl, ?_⟩
      · apply List.mem_append_right
        rw [if_pos hpos]
        exact List.mem_singleton_self _
      · exact List.mem_map_of_mem _ hrin
    · intro tr htr hinfo
      rcases List.mem_append.mp htr with hL | hR
      · obtain ⟨band, hband, rfl⟩ := List.mem_map.mp hL
        obtain ⟨r', hr', heq⟩ := List.mem_map.mp hinfo
        injection heq with hst hrate hreg
        have hband' : get_rate_band r'.rate = band := by
          have := (List.mem_filter.mp hr').2
          simpa using this
        show active_bands.contains band = false
        rw [← hband', hrate]
        exact hinact
      · by_cases hc : ((records.filter (fun x => decide (x.year = year))).filter
            (fun x => !(active_bands.contains (get_rate_band x.rate)))).length > 0
        · rw [if_pos hc] at hR
          rw [List.mem_singleton] at hR
          subst hR
          obtain ⟨r', _, heq⟩ := List.mem_map.mp hinfo
          exact Hover.noConfusion heq
        · rw [if_neg hc] at hR
          exact absurd hR (List.not_mem_nil tr)

/-- Witness for C2 (amended): Alaska 2023 with all bands active shows its
full hover on a visible trace. -/
theorem C2_full_hover_only_for_active_bands_witness :
    ((⟨"Alaska", 2023, 28, "Pacific", "AK"⟩ : Record)
        ∈ alaskaRecords.filter (fun x => decide (x.year = 2023))) ∧
    ((BAND_ORDER.contains (get_rate_band (28 : ℚ)) = true →
      ∃ tr ∈ update_map 2023 BAND_ORDER none alaskaRecords,
        tr.visible = true ∧ Hover.info "Alaska" 28 "Pacific" ∈ tr.hovers) ∧
     (BAND_ORDER.contains (get_rate_band (28 : ℚ)) = false →
      (∃ tr ∈ update_map 2023 BAND_ORDER none alaskaRecords,
        tr.visible = true ∧ Hover.filteredNote "Alaska" ∈ tr.hovers) ∧
      ∀ tr ∈ update_map 2023 BAND_ORDER none alaskaRecords,
        Hover.info "Alaska" 28 "Pacific" ∈ tr.hovers →
          tr.visible = false)) :=
  ⟨by decide, C2_full_hover_only_for_active_bands 2023 BAND_ORDER none
    alaskaRecords ⟨"Alaska", 2023, 28, "Pacific", "AK"⟩ (by decide)⟩

/-! ## Claim theorems: detail stats -/

/-- C6: for a selected state whose year-sorted row list has at least two
rows with consecutive years, the stats derivation reports the minimum rate
with the year of the first row attaining it (scanning ascending years), the
maximum rate with the year of its first row, the mean rate, and the largest
single-year increase and decrease over the delta column with the year of the
first delta attaining each, where every delta belongs to a row `year ≥`
second row (the first year carries no delta) and equals
`rate[year] - rate[year - 1]`. -/
theorem C6_update_state_stats_report
    (s : String) (records : List Record)
    (h2 : 2 ≤ (stateRows s records).length)
    (hconsec : (stateRows s records).Chain' (fun a b => b.year = a.year + 1)) :
    ∃ mn mx : Record, ∃ inc dcr : Record × ℚ,
      update_state_stats (some s) records
        = some (.stats s mn.rate mn.year mx.rate mx.year
            (((stateRows s records).map (fun r => r.rate)).sum /
              ((stateRows s records).length : ℚ))
            inc.2 inc.1.year dcr.2 dcr.1.year) ∧
      (∃ pre suf, stateRows s records = pre ++ mn :: suf ∧
        (∀ p ∈ pre, mn.rate < p.rate) ∧
        ∀ q ∈ stateRows s records, mn.rate ≤ q.rate) ∧
      (∃ pre suf, stateRows s records = pre ++ mx :: suf ∧
        (∀ p ∈ pre, p.rate < mx.rate) ∧
        ∀ q ∈ stateRows s records, q.rate ≤ mx.rate) ∧
      (∃ pre suf, yearDeltas (stateRows s records) = pre ++ inc :: suf ∧
        (∀ p ∈ pre, p.2 < inc.2) ∧
        ∀ q ∈ yearDeltas (stateRows s records), q.2 ≤ inc.2) ∧
      (∃ pre suf, yearDeltas (stateRows s records) = pre ++ dcr :: suf ∧
        (∀ p ∈ pre, dcr.2 < p.2) ∧
        ∀ q ∈ yearDeltas (stateRows s records), dcr.2 ≤ q.2) ∧
      (∀ d ∈ yearDeltas (stateRows s records),
        d.1 ∈ stateRows s records ∧
        ∃ prev ∈ stateRows s records, prev.year = d.1.year - 1 ∧
          d.2 = d.1.rate - prev.rate) := by
  have hne : stateRows s records ≠ [] := by
    intro h
    rw [h] at h2
    simp at h2
  have hdlen : (yearDeltas (stateRows s records)).length
      = (stateRows s records).length - 1 := by
    simp [yearDeltas, List.length_zip, List.length_tail]
  have hdne : yearDeltas (stateRows s records) ≠ [] := by
    intro h
    rw [h] at hdlen
    simp at hdlen
    omega
  obtain ⟨mn, hmn⟩ : ∃ mn, firstMinBy (fun r => r.rate) (stateRows s records)
      = some mn := by
    cases h : firstMinBy (fun r => r.rate) (stateRows s records) with
    | none => exact absurd (firstMinBy_eq_none.mp h) hne
    | some v => exact ⟨v, rfl⟩
  obtain ⟨mx, hmx⟩ : ∃ mx, firstMaxBy (fun r => r.rate) (stateRows s records)
      = some mx := by
    cases h : firstMaxBy (fun r => r.rate) (stateRows s records) with
    | none => exact absurd (firstMaxBy_eq_none.mp h) hne
    | some v => exact ⟨v, rfl⟩
  obtain ⟨inc, hinc⟩ : ∃ inc, firstMaxBy (fun d => d.2)
      (yearDeltas (stateRows s records)) = some inc := by
    cases h : firstMaxBy (fun d => d.2) (yearDeltas (stateRows s records)) with
    | none => exact absurd (firstMaxBy_eq_none.mp h) hdne
    | some v => exact ⟨v, rfl⟩
  obtain ⟨dcr, hdcr⟩ : ∃ dcr, firstMinBy (fun d => d.2)
      (yearDeltas (stateRows s records)) = some dcr := by
    cases h : firstMinBy (fun d => d.2) (yearDeltas (stateRows s records)) with
    | none => exact absurd (firstMinBy_eq_none.mp h) hdne
    | some v => exact ⟨v, rfl⟩
  have hstep : update_state_stats (some s) records
      = some (.stats s mn.rate mn.year mx.rate mx.year
          (((stateRows s records).map (fun r => r.rate)).sum /
            ((stateRows s records).length : ℚ))
          inc.2 inc.1.year dcr.2 dcr.1.year) := by
    simp only [update_state_stats, state_stats_core]
    rw [if_neg hne, hmn, hmx, hinc, hdcr]
  refine ⟨mn, mx, inc, dcr, hstep, firstMinBy_spec hmn, firstMaxBy_spec hmx,
    firstMaxBy_spec hinc, firstMinBy_spec hdcr, ?_⟩
  intro d hd
  simp only [yearDeltas] at hd
  obtain ⟨p, hp, rfl⟩ := List.mem_map.mp hd
  obtain ⟨h1, hmem2, hR⟩ := zip_tail_mem_chain hconsec p hp
  refine ⟨hmem2, p.1, h1, ?_, rfl⟩
  show p.1.year = p.2.year - 1
  omega

/-- The synthetic three-year series 12.0, 15.0, 11.0 over 2000-2002. -/
def statsWitnessRecords : List Record :=
  [⟨"Utah", 2000, 12, "Mountain", "UT"⟩,
   ⟨"Utah", 2001, 15, "Mountain", "UT"⟩,
   ⟨"Utah", 2002, 11, "Mountain", "UT"⟩]

/-- Witness for C6 on the synthetic series [12, 15, 11]: the hypotheses
hold, the characterization applies, and concretely the derivation reports
min 11 in 2002, max 15 in 2001, mean 38/3, largest increase +3 spanning
2000→2001 and largest decrease −4 spanning 2001→2002. -/
theorem C6_update_state_stats_report_witness :
    (2 ≤ (stateRows "Utah" statsWitnessRecords).length ∧
      (stateRows "Utah" statsWitnessRecords).Chain'
        (fun a b => b.year = a.year + 1)) ∧
    (∃ mn mx : Record, ∃ inc dcr : Record × ℚ,
      update_state_stats (some "Utah") statsWitnessRecords
        = some (.stats "Utah" mn.rate mn.year mx.rate mx.year
            (((stateRows "Utah" statsWitnessRecords).map (fun r => r.rate)).sum /
              ((stateRows "Utah" statsWitnessRecords).length : ℚ))
            inc.2 inc.1.year dcr.2 dcr.1.year) ∧
      (∃ pre suf, stateRows "Utah" statsWitnessRecords = pre ++ mn :: suf ∧
        (∀ p ∈ pre, mn.rate < p.rate) ∧
        ∀ q ∈ stateRows "Utah" statsWitnessRecords, mn.rate ≤ q.rate) ∧
      (∃ pre suf, stateRows "Utah" statsWitnessRecords = pre ++ mx :: suf ∧
        (∀ p ∈ pre, p.rate < mx.rate) ∧
        ∀ q ∈ stateRows "Utah" statsWitnessRecords, q.rate ≤ mx.rate) ∧
      (∃ pre suf, yearDeltas (stateRows "Utah" statsWitnessRecords)
          = pre ++ inc :: suf ∧
        (∀ p ∈ pre, p.2 < inc.2) ∧
        ∀ q ∈ yearDeltas (stateRows "Utah" statsWitnessRecords), q.2 ≤ inc.2) ∧
      (∃ pre suf, yearDeltas (stateRows "Utah" statsWitnessRecords)
          = pre ++ dcr :: suf ∧
        (∀ p ∈ pre, dcr.2 < p.2) ∧
        ∀ q ∈ yearDeltas (stateRows "Utah" statsWitnessRecords), dcr.2 ≤ q.2) ∧
      (∀ d ∈ yearDeltas (stateRows "Utah" statsWitnessRecords),
        d.1 ∈ stateRows "Utah" statsWitnessRecords ∧
        ∃ prev ∈ stateRows "Utah" statsWitnessRecords,
          prev.year = d.1.year - 1 ∧ d.2 = d.1.rate - prev.rate)) ∧
    update_state_stats (some "Utah") statsWitnessRecords
      = some (.stats "Utah" 11 2002 15 2001 ((38 : ℚ) / 3) 3 2001 (-4) 2002) := by
  have hlen : 2 ≤ (stateRows "Utah" statsWitnessRecords).length := by decide
  have hchain : (stateRows "Utah" statsWitnessRecords).Chain'
      (fun a b => b.year = a.year + 1) := by
    rw [show stateRows "Utah" statsWitnessRecords
        = [⟨"Utah", 2000, 12, "Mountain", "UT"⟩,
           ⟨"Utah", 2001, 15, "Mountain", "UT"⟩,
           ⟨"Utah", 2002, 11, "Mountain", "UT"⟩] from rfl]
    simp [List.chain'_cons]
  refine ⟨⟨hlen, hchain⟩,
    C6_update_state_stats_report "Utah" statsWitnessRecords hlen hchain, ?_⟩
  have h1 : stateRows "Utah" statsWitnessRecords
      = [⟨"Utah", 2000, 12, "Mountain", "UT"⟩,
         ⟨"Utah", 2001, 15, "Mountain", "UT"⟩,
         ⟨"Utah", 2002, 11, "Mountain", "UT"⟩] := rfl
  have hd : yearDeltas [(⟨"Utah", 2000, 12, "Mountain", "UT"⟩ : Record),
         ⟨"Utah", 2001, 15, "Mountain", "UT"⟩,
         ⟨"Utah", 2002, 11, "Mountain", "UT"⟩]
      = [(⟨"Utah", 2001, 15, "Mountain", "UT"⟩, 3),
         (⟨"Utah", 2002, 11, "Mountain", "UT"⟩, -4)] := by
    simp only [yearDeltas, List.tail_cons, List.zip_cons_cons, List.zip_nil_right,
      List.map_cons, List.map_nil]
    norm_num
  have hmn : firstMinBy (fun r => r.rate)
      [(⟨"Utah", 2000, 12, "Mountain", "UT"⟩ : Record),
       ⟨"Utah", 2001, 15, "Mountain", "UT"⟩,
       ⟨"Utah", 2002, 11, "Mountain", "UT"⟩]
      = some ⟨"Utah", 2002, 11, "Mountain", "UT"⟩ := rfl
  have hmx : firstMaxBy (fun r => r.rate)
      [(⟨"Utah", 2000, 12, "Mountain", "UT"⟩ : Record),
       ⟨"Utah", 2001, 15, "Mountain", "UT"⟩,
       ⟨"Utah", 2002, 11, "Mountain", "UT"⟩]
      = some ⟨"Utah", 2001, 15, "Mountain", "UT"⟩ := rfl
  have hinc : firstMaxBy (fun d => d.2)
      [((⟨"Utah", 2001, 15, "Mountain", "UT"⟩ : Record), (3 : ℚ)),
       (⟨"Utah", 2002, 11, "Mountain", "UT"⟩, -4)]
      = some (⟨"Utah", 2001, 15, "Mountain", "UT"⟩, 3) := by
    simp only [firstMaxBy]
    norm_num
  have hdcr : firstMinBy (fun d => d.2)
      [((⟨"Utah", 2001, 15, "Mountain", "UT"⟩ : Record), (3 : ℚ)),
       (⟨"Utah", 2002, 11, "Mountain", "UT"⟩, -4)]
      = some (⟨"Utah", 2002, 11, "Mountain", "UT"⟩, -4) := by
    simp only [firstMinBy]
    norm_num
  simp only [update_state_stats, state_stats_core, h1, hd]
  rw [if_neg (by decide), hmn, hmx, hinc, hdcr]
  norm_num

end SuicideMap
